import Mathlib

/-!
Verification development for the rust liquidation keeper
(`keeper_bots/rust_liquidation_keeper`).

Shallow embedding conventions:
* `U256` values are `Nat`; the wrap-free 256-bit range is tracked explicitly.
  The `uint` crate's `*`, `-`, `+` panic on overflow/underflow and `as_u64`
  panics above `u64::MAX`; a panic (no store write, process aborts) and a
  propagated `Err` are both modelled as `Option.none`.
* `checked_mul` / `checked_sub` / `checked_div` / `saturating_mul` /
  `saturating_sub` are modelled by the functions below.
* RocksDB tables are association lists keyed the way the source builds its
  string keys (positions by `(user, token_id)`, auctions by `auction_id`).
-/

namespace Keeper

/-- Largest value representable by `web3::types::U256`. -/
def U256MAX : Nat := 2 ^ 256 - 1

/-- `PRICE_PRECISION` / WAD = 1e18, as in `nav.rs` and `reset.rs`. -/
def WAD : Nat := 1000000000000000000

/-- `U256::checked_mul`; also models the panicking `Mul` (panic ↦ `none`). -/
def checkedMul (a b : Nat) : Option Nat :=
  if a * b ≤ U256MAX then some (a * b) else none

/-- `U256::checked_add`; also models the panicking `Add`. -/
def checkedAdd (a b : Nat) : Option Nat :=
  if a + b ≤ U256MAX then some (a + b) else none

/-- `U256::checked_sub`; also models the panicking `Sub` (underflow ↦ `none`). -/
def checkedSub (a b : Nat) : Option Nat :=
  if b ≤ a then some (a - b) else none

/-- `U256::checked_div` (`none` exactly on division by zero). -/
def checkedDiv (a b : Nat) : Option Nat :=
  if b = 0 then none else some (a / b)

/-- `U256::saturating_mul`. -/
def satMul (a b : Nat) : Nat := min (a * b) U256MAX

/-- `database.rs`: leverage type enumeration. -/
inductive LeverageType where
  | conservative
  | moderate
  | aggressive
deriving DecidableEq, Repr

/-- `database.rs` `LeverageType::from_u8` (`anyhow::Result` ↦ `Option`). -/
def LeverageType.from_u8 (value : Nat) : Option LeverageType :=
  if value = 0 then some .conservative
  else if value = 1 then some .moderate
  else if value = 2 then some .aggressive
  else none

/-- `database.rs` `UserPosition` (addresses and U256 fields as `Nat`). -/
structure UserPosition where
  user : Nat
  token_id : Nat
  amount : Nat
  timestamp : Nat
  total_interest : Nat
  leverage : LeverageType
  mint_price : Nat
deriving DecidableEq, Repr

/-- `nav.rs` `NavCalculation` (the leverage-independent numeric fields). -/
structure NavCalculation where
  user : Nat
  token_id : Nat
  gross_nav : Nat
  net_nav : Nat
  position_amount : Nat
  total_value : Nat
  net_value : Nat
  accrued_interest : Nat
deriving DecidableEq, Repr

/-- `nav.rs` `NavMonitor::calculate_gross_nav`.  The multiplications and the
subtraction are unchecked `U256` operators, hence panic (`none`) on
overflow/underflow; the explicit zero-denominator `Err` is also `none`. -/
def calculate_gross_nav (leverage : LeverageType) (current_price mint_price : Nat) :
    Option Nat :=
  match leverage with
  | .conservative => do
      let pt_scaled ← checkedMul 9 current_price
      let numerator ← checkedSub pt_scaled mint_price
      let denominator ← checkedMul 8 mint_price
      if denominator = 0 then none
      else do
        let scaled ← checkedMul numerator WAD
        some (scaled / denominator)
  | .moderate => do
      let pt_scaled ← checkedMul 5 current_price
      let numerator ← checkedSub pt_scaled mint_price
      let denominator ← checkedMul 4 mint_price
      if denominator = 0 then none
      else do
        let scaled ← checkedMul numerator WAD
        some (scaled / denominator)
  | .aggressive => do
      let pt_scaled ← checkedMul 2 current_price
      let numerator ← checkedSub pt_scaled mint_price
      let denominator := mint_price
      if denominator = 0 then none
      else do
        let scaled ← checkedMul numerator WAD
        some (scaled / denominator)

/-- `nav.rs` `NavMonitor::calculate_accrued_interest`. -/
def calculate_accrued_interest (position_amount : Nat) (leverage_level : LeverageType)
    (interest_rate holding_time_seconds : Nat) : Option Nat :=
  if position_amount = 0 ∨ interest_rate = 0 then some 0
  else do
    let n1 ← checkedMul position_amount holding_time_seconds
    let numerator ← checkedMul n1 interest_rate
    let denominator ← checkedMul 10000 31536000
    let base ← checkedDiv numerator denominator
    match leverage_level with
    | .conservative => checkedDiv base 8
    | .moderate => checkedDiv base 4
    | .aggressive => some base

/-- `nav.rs` `calculate_all_nav` lines 131-143: the new interest actually used
by the NAV loop — `0` whenever `calculate_accrued_interest` overflows. -/
def newInterestUsed (position_amount : Nat) (leverage : LeverageType)
    (interest_rate holding_time_seconds : Nat) : Nat :=
  (calculate_accrued_interest position_amount leverage interest_rate
    holding_time_seconds).getD 0

/-- `nav.rs` `calculate_all_nav` loop body for one position whose
`mint_price` is not zero (lines 130-196).  `now - p.timestamp` is the
`saturating_sub` of the source; the `total_interest + new_interest` addition
and the `amount * gross_nav`, `net_value * WAD` multiplications are unchecked
`U256` operators (panic ↦ `none`). -/
def navForPosition (interest_rate now current_price : Nat) (p : UserPosition) :
    Option NavCalculation := do
  let holding := now - p.timestamp
  let new_interest := newInterestUsed p.amount p.leverage interest_rate holding
  let total_accrued ← checkedAdd p.total_interest new_interest
  let gross ← calculate_gross_nav p.leverage current_price p.mint_price
  let total_value ←
    if gross = 0 then some 0
    else do
      let m ← checkedMul p.amount gross
      some (m / WAD)
  if total_accrued ≤ total_value then do
    let net_value := total_value - total_accrued
    let net_nav ←
      if p.amount = 0 then some 0
      else do
        let m ← checkedMul net_value WAD
        some (m / p.amount)
    some ⟨p.user, p.token_id, gross, net_nav, p.amount, total_value, net_value,
      total_accrued⟩
  else
    some ⟨p.user, p.token_id, gross, 0, p.amount, total_value, 0, total_accrued⟩

/-- `nav.rs` `NavMonitor::calculate_all_nav`: skip positions with
`mint_price == 0`; a panic or error on any processed position aborts the whole
computation. -/
def calculate_all_nav (interest_rate now current_price : Nat) :
    List UserPosition → Option (List NavCalculation)
  | [] => some []
  | p :: ps =>
    if p.mint_price = 0 then calculate_all_nav interest_rate now current_price ps
    else do
      let nc ← navForPosition interest_rate now current_price p
      let rest ← calculate_all_nav interest_rate now current_price ps
      some (nc :: rest)

/-- Spec-side NAV formula of §3 of the spec (`(9·Pt − P0)/(8·P0)` etc. scaled
by WAD), written with truncating `Nat` arithmetic.  Used only to compare the
source embedding against the specification. -/
def specGrossNav : LeverageType → Nat → Nat → Nat
  | .conservative, pt, p0 => (9 * pt - p0) * WAD / (8 * p0)
  | .moderate, pt, p0 => (5 * pt - p0) * WAD / (4 * p0)
  | .aggressive, pt, p0 => (2 * pt - p0) * WAD / (1 * p0)

/-- Spec-side net NAV `max(0, A·gross/WAD − I)·WAD/A` (`Nat` subtraction is the
`max(0, ·)` clamp).  Used only to compare against the source embedding. -/
def specNetNav (amount gross accrued : Nat) : Nat :=
  (amount * gross / WAD - accrued) * WAD / amount

/-- Spec-side multiplier `k₁` of the leverage formula `(k₁·Pt − P0)/(k₂·P0)`. -/
def leverageMul : LeverageType → Nat
  | .conservative => 9
  | .moderate => 5
  | .aggressive => 2

/-- Spec-side divisor `k₂` of the leverage formula `(k₁·Pt − P0)/(k₂·P0)`. -/
def leverageDen : LeverageType → Nat
  | .conservative => 8
  | .moderate => 4
  | .aggressive => 1

/-- `reset.rs` `calculate_reset_duration`.  `reset_time.as_u64()` panics when
`reset_time ≥ 2^64` (`none`); the two `saturating_mul`s are kept; the
`checked_div` by the nonzero `WAD` and by the nonzero `starting_price` always
succeed, so their `unwrap_or(0)` fallbacks are dead; the final
`elapsed > u64::MAX` test is dead because `elapsed ≤ reset_time < 2^64`. -/
def calculate_reset_duration (starting_price price_drop_threshold reset_time : Nat) :
    Option Nat :=
  if starting_price = 0 then some 0
  else if 2 ^ 64 ≤ reset_time then none
  else if reset_time = 0 then some 0
  else
    let threshold_price := satMul starting_price price_drop_threshold / WAD
    if starting_price ≤ threshold_price then some 0
    else
      let numerator := satMul threshold_price reset_time
      let remaining_ratio := numerator / starting_price
      if reset_time ≤ remaining_ratio then some 0
      else some (reset_time - remaining_ratio)

/-! ### Mirror store: positions -/

/-- Position table of `database.rs`, keyed by `(user, token_id)` as in the
`"position_{user}_{token_id}"` keys. -/
abbrev PositionStore := List ((Nat × Nat) × UserPosition)

/-- `database.rs` `get_user_position`. -/
def getPos : PositionStore → Nat × Nat → Option UserPosition
  | [], _ => none
  | e :: rest, k => if e.1 = k then some e.2 else getPos rest k

/-- `database.rs` `delete_user_position`. -/
def deletePos : PositionStore → Nat × Nat → PositionStore
  | [], _ => []
  | e :: rest, k => if e.1 = k then deletePos rest k else e :: deletePos rest k

/-- `database.rs` `store_user_position`: upsert under the key built from the
record's own `user` and `token_id` fields. -/
def storePos (s : PositionStore) (p : UserPosition) : PositionStore :=
  ((p.user, p.token_id), p) :: deletePos s (p.user, p.token_id)

/-! ### Decoded events and their application (`events.rs`) -/

/-- The decoded event payloads applied to the position table
(`events.rs` `process_interest_event`, `process_liquidation_event`
(`NetValueAdjusted`), `process_custodian_event` (`Mint`)). -/
inductive Event where
  | positionIncreased (user tokenId totalAmount totalInterest : Nat)
  | interestCollected (user tokenId deduct interest : Nat)
  | mint (user tokenId leverageByte mintPrice lAmount : Nat)
  | netValueAdjusted (user toTokenId leverageByte newMintPrice adjustAmount : Nat)
deriving DecidableEq, Repr

/-- One event applied to the position table; `none` models a propagated error
(`LeverageType::from_u8` failure) or a `U256` underflow panic — in both cases
nothing is written to the store.  Mirrors `events.rs` lines 1413-1509
(`PositionIncreased`, `InterestCollected`), 1565-1618 (`NetValueAdjusted`) and
1893-1947 (`Mint`). -/
def applyEvent (now : Nat) (s : PositionStore) : Event → Option PositionStore
  | .positionIncreased user tokenId totalAmount totalInterest =>
      let position :=
        match getPos s (user, tokenId) with
        | some existing =>
            { existing with
              amount := totalAmount
              total_interest := totalInterest
              timestamp := now }
        | none =>
            ⟨user, tokenId, totalAmount, now, totalInterest, .conservative, 0⟩
      some (storePos s position)
  | .interestCollected user tokenId deduct interest =>
      match getPos s (user, tokenId) with
      | some position => do
          let amount ← checkedSub position.amount deduct
          let ti ← checkedSub position.total_interest interest
          let position :=
            { position with amount := amount, total_interest := ti, timestamp := now }
          if position.amount = 0 then some (deletePos s (user, tokenId))
          else some (storePos s position)
      | none => some s
  | .mint user tokenId leverageByte mintPrice lAmount => do
      let leverage ← LeverageType.from_u8 leverageByte
      match getPos s (user, tokenId) with
      | some position =>
          some (storePos s { position with mint_price := mintPrice, leverage := leverage })
      | none =>
          some (storePos s ⟨user, tokenId, lAmount, now, 0, leverage, mintPrice⟩)
  | .netValueAdjusted user toTokenId leverageByte newMintPrice adjustAmount => do
      let leverage ← LeverageType.from_u8 leverageByte
      match getPos s (user, toTokenId) with
      | some position =>
          some (storePos s { position with leverage := leverage, mint_price := newMintPrice })
      | none =>
          some (storePos s ⟨user, toTokenId, adjustAmount, now, 0, leverage, newMintPrice⟩)

/-- Observable store evolution under a sequence of decoded events: an event
whose processing errors or panics leaves the store unchanged (`events.rs`
callers log the error and continue; a panic occurs before any write). -/
def applyEvents (now : Nat) (s : PositionStore) : List Event → PositionStore
  | [] => s
  | e :: es => applyEvents now ((applyEvent now s e).getD s) es

/-- Invariant I1 of the spec: every stored record has a positive amount. -/
def goodStore (s : PositionStore) : Prop :=
  ∀ e ∈ s, 0 < e.2.amount

instance (s : PositionStore) : Decidable (goodStore s) := by
  unfold goodStore
  infer_instance

/-- Side condition under which I1 survives: the amount fields that can be
written into a record are positive. -/
def positiveAmounts : Event → Prop
  | .positionIncreased _ _ totalAmount _ => 0 < totalAmount
  | .interestCollected _ _ _ _ => True
  | .mint _ _ _ _ lAmount => 0 < lAmount
  | .netValueAdjusted _ _ _ _ adjustAmount => 0 < adjustAmount

instance (e : Event) : Decidable (positiveAmounts e) := by
  cases e <;> dsimp [positiveAmounts] <;> infer_instance

/-! ### System parameters (`database.rs`) and parameter dispatch (`events.rs`) -/

/-- `database.rs` `SystemParams`. -/
structure SystemParams where
  liquidation_threshold : Nat
  adjustment_threshold : Nat
  penalty : Nat
  price_multiplier : Nat
  reset_time : Nat
  price_drop_threshold : Nat
  percentage_reward : Nat
  fixed_reward : Nat
  min_auction_amount : Nat
  annual_interest_rate : Nat
deriving DecidableEq, Repr

/-- `database.rs` `SystemParams::default`. -/
def defaultSystemParams : SystemParams where
  liquidation_threshold := 300000000000000000
  adjustment_threshold := 500000000000000000
  penalty := 3000000000000000
  price_multiplier := 1000
  reset_time := 3600
  price_drop_threshold := 500
  percentage_reward := 100
  fixed_reward := 1000000000000000000
  min_auction_amount := 1000000000000000000
  annual_interest_rate := 300

/-- `str::trim`: drop leading and trailing whitespace characters. -/
def trimChars (cs : List Char) : List Char :=
  ((cs.dropWhile Char.isWhitespace).reverse.dropWhile Char.isWhitespace).reverse

/-- `events.rs` name extraction from a `bytes32` topic: truncate at the first
NUL or space, decode, trim.  Bytes are decoded one byte per character; on the
ASCII range this agrees exactly with the source's `String::from_utf8_lossy`,
and every non-ASCII byte yields (here as there) a character that occurs in no
whitelisted name. -/
def parseParameterName (parameter_bytes : List Nat) : String :=
  String.mk (trimChars
    ((parameter_bytes.takeWhile (fun b => decide (b ≠ 0 ∧ b ≠ 32))).map
      (fun b => Char.ofNat b)))

/-- `events.rs` `update_liquidation_parameter` (lines 1777-1819): dispatch on
the decoded name; unknown names leave the row unchanged and return `Ok`. -/
def update_liquidation_parameter (params : SystemParams) (parameter_bytes : List Nat)
    (value : Nat) : SystemParams :=
  if parameter_bytes.length ≠ 32 then params
  else
    let name := parseParameterName parameter_bytes
    if name = "adjustmentThreshold" then { params with adjustment_threshold := value }
    else if name = "liquidationThreshold" then { params with liquidation_threshold := value }
    else if name = "penalty" then { params with penalty := value }
    else params

/-- `events.rs` `update_auction_parameter` (lines 1831-1891).  The
`circuitBreaker` arm only logs, so it leaves the row unchanged too. -/
def update_auction_parameter (params : SystemParams) (parameter_bytes : List Nat)
    (value : Nat) : SystemParams :=
  if parameter_bytes.length ≠ 32 then params
  else
    let name := parseParameterName parameter_bytes
    if name = "priceMultiplier" then { params with price_multiplier := value }
    else if name = "resetTime" then { params with reset_time := value }
    else if name = "minAuctionAmount" then { params with min_auction_amount := value }
    else if name = "priceDropThreshold" then { params with price_drop_threshold := value }
    else if name = "percentageReward" then { params with percentage_reward := value }
    else if name = "fixedReward" then { params with fixed_reward := value }
    else if name = "circuitBreaker" then params
    else params

/-- The `bytes32` encoding of a short ASCII parameter name: the bytes of the
string padded with NULs to 32 bytes. -/
def padBytes32 (s : String) : List Nat :=
  (s.data.map Char.toNat) ++ List.replicate (32 - s.length) 0

/-! ### Auctions and the reset timer (`database.rs`, `reset.rs`, `events.rs`) -/

/-- `database.rs` `AuctionInfo` (addresses and U256 fields as `Nat`). -/
structure AuctionInfo where
  auction_id : Nat
  starting_price : Nat
  underlying_amount : Nat
  original_owner : Nat
  token_id : Nat
  triggerer : Nat
  reward_amount : Nat
  start_time : Nat
deriving DecidableEq, Repr

/-- Auction table of `database.rs`, keyed by `auction_id`. -/
abbrev AuctionStore := List (Nat × AuctionInfo)

/-- `database.rs` `get_auction`. -/
def getAuction : AuctionStore → Nat → Option AuctionInfo
  | [], _ => none
  | e :: rest, id => if e.1 = id then some e.2 else getAuction rest id

/-- `database.rs` `delete_auction`. -/
def deleteAuction : AuctionStore → Nat → AuctionStore
  | [], _ => []
  | e :: rest, id => if e.1 = id then deleteAuction rest id else e :: deleteAuction rest id

/-- `database.rs` `store_auction`: upsert under the record's own
`auction_id`. -/
def storeAuction (s : AuctionStore) (a : AuctionInfo) : AuctionStore :=
  (a.auction_id, a) :: deleteAuction s a.auction_id

/-- `database.rs` `auction_exists`. -/
def auctionExists (s : AuctionStore) (id : Nat) : Bool :=
  (getAuction s id).isSome

/-- Decoded auction events of `events.rs` `process_auction_event`. -/
inductive AuctionEvent where
  | auctionStarted (id startingPrice underlyingAmount originalOwner tokenId
      triggerer rewardAmount : Nat)
  | auctionReset (id newStartingPrice : Nat)
  | auctionRemoved (id : Nat)
deriving DecidableEq, Repr

/-- One auction event applied to the auction table (`events.rs` lines
1652-1770). -/
def applyAuctionEvent (now : Nat) (s : AuctionStore) : AuctionEvent → AuctionStore
  | .auctionStarted id startingPrice underlyingAmount originalOwner tokenId
      triggerer rewardAmount =>
      storeAuction s ⟨id, startingPrice, underlyingAmount, originalOwner, tokenId,
        triggerer, rewardAmount, now⟩
  | .auctionReset id newStartingPrice =>
      match getAuction s id with
      | some a =>
          storeAuction s
            { a with
              starting_price := newStartingPrice
              start_time := now }
      | none => s
  | .auctionRemoved id => deleteAuction s id

/-- A sequence of auction events, each with its own wall-clock time. -/
def applyAuctionEvents (s : AuctionStore) : List (Nat × AuctionEvent) → AuctionStore
  | [] => s
  | e :: es => applyAuctionEvents (applyAuctionEvent e.1 s e.2) es

/-- The hard-coded keeper address `0x123456789abcdef` of `reset.rs` and
`liquidation.rs`. -/
def keeper_address : Nat := 0x123456789abcdef

/-- `reset.rs` `start_reset_task` lines 124-148: at the moment the timer
fires, a `resetAuction(auctionId, keeper)` transaction is submitted iff the
auction record still exists; otherwise the task is a no-op. -/
def timerFire (s : AuctionStore) (id : Nat) : Option (Nat × Nat) :=
  if auctionExists s id then some (id, keeper_address) else none

/-- An auction event that re-creates the record for auction `id`
(only `AuctionStarted` inserts records). -/
def recreatesAuction (id : Nat) : AuctionEvent → Prop
  | .auctionStarted idStarted _ _ _ _ _ _ => idStarted = id
  | _ => False

instance (id : Nat) (e : AuctionEvent) : Decidable (recreatesAuction id e) := by
  cases e <;> dsimp [recreatesAuction] <;> infer_instance

/-- Auction-table consistency: each entry is stored under its record's own
`auction_id` (true of every table the source builds, since `store_auction`
derives the key from the record). -/
def consistentAuctions (s : AuctionStore) : Prop :=
  ∀ e ∈ s, e.1 = e.2.auction_id

instance (s : AuctionStore) : Decidable (consistentAuctions s) := by
  unfold consistentAuctions
  infer_instance

/-! ### Liquidation loop (`liquidation.rs`) -/

/-- `liquidation.rs` `check_and_execute_liquidations` lines 72-110: compute all
NAVs, filter by `net_nav < liquidation_threshold`, then attempt one
`bark(user, tokenId, keeper)` per filtered position; each attempt's outcome is
given by `fails` and is only logged, never short-circuiting the loop.
Returns the list of attempted barks (key, outcome); `none` when the NAV
computation errors or panics, in which case no bark is attempted. -/
def check_and_execute_liquidations (interest_rate now current_price
    liquidation_threshold : Nat) (positions : List UserPosition)
    (fails : Nat × Nat → Bool) : Option (List ((Nat × Nat) × Bool)) := do
  let nav_results ← calculate_all_nav interest_rate now current_price positions
  let liquidatable := nav_results.filter (fun r => r.net_nav < liquidation_threshold)
  some (liquidatable.map (fun r => ((r.user, r.token_id), fails (r.user, r.token_id))))

/-! ### Sync cursor (`events.rs` `process_block_events`) -/

/-- `events.rs` lines 896-903: after handling a block's logs the realtime path
writes `last_synced_block := block_number` whenever any event was processed or
the block number is positive; otherwise the stored cursor is untouched. -/
def processBlockCursor (cursor blockNumber eventsCount : Nat) : Nat :=
  if 0 < eventsCount ∨ 0 < blockNumber then blockNumber else cursor

/-- Cursor after a run of realtime block processing, one `(block, events)`
pair per processed block. -/
def runRealtimeCursor (cursor : Nat) : List (Nat × Nat) → Nat
  | [] => cursor
  | b :: bs => runRealtimeCursor (processBlockCursor cursor b.1 b.2) bs

/-- The successive stored cursor values along a realtime run. -/
def cursorTrace (cursor : Nat) : List (Nat × Nat) → List Nat
  | [] => [cursor]
  | b :: bs => cursor :: cursorTrace (processBlockCursor cursor b.1 b.2) bs

/-- Blocks delivered in chain order, starting at or above the current
cursor. -/
def ascendingFrom : Nat → List (Nat × Nat) → Prop
  | _, [] => True
  | c, b :: bs => c ≤ b.1 ∧ ascendingFrom b.1 bs

/-- Spec-side interest divisor of §3 (8 / 4 / 1). -/
def interestDivisor : LeverageType → Nat
  | .conservative => 8
  | .moderate => 4
  | .aggressive => 1

/-- Positions together with the system-parameter row; the event handlers for
`PositionIncreased`, `InterestCollected`, `Mint` and `NetValueAdjusted` go
through the position-table API of `database.rs` only, so a full-state
transition for them acts on `positions` alone. -/
structure MirrorState where
  positions : PositionStore
  params : SystemParams
deriving DecidableEq

/-- Full-state effect of one decoded event: a failed application (error or
panic) leaves the whole state unchanged. -/
def applyEventFull (now : Nat) (st : MirrorState) (e : Event) : MirrorState :=
  { st with positions := (applyEvent now st.positions e).getD st.positions }

/-! ## Theorems -/

/-- C5: the newly accrued interest used by the NAV loop is
`A·r·t / (10000·31536000)` divided by the leverage interest-divisor, computed
with checked 256-bit arithmetic, and `0` whenever an intermediate
multiplication overflows. -/
theorem c5_accrued_interest_checked (position_amount : Nat) (leverage : LeverageType)
    (interest_rate holding_time : Nat) :
    newInterestUsed position_amount leverage interest_rate holding_time =
      if position_amount * holding_time ≤ U256MAX ∧
          position_amount * holding_time * interest_rate ≤ U256MAX then
        position_amount * interest_rate * holding_time / (10000 * 31536000) /
          interestDivisor leverage
      else 0 := by
  unfold newInterestUsed calculate_accrued_interest
  by_cases hA : position_amount = 0
  · subst hA
    cases leverage <;> simp [interestDivisor]
  · by_cases hr : interest_rate = 0
    · rw [if_pos (Or.inr hr)]
      simp only [Option.getD_some]
      split

      · simp [hr]
      · rfl
    · rw [if_neg (by tauto)]
      by_cases h1 : position_amount * holding_time ≤ U256MAX
      · by_cases h2 : position_amount * holding_time * interest_rate ≤ U256MAX
        · rw [if_pos ⟨h1, h2⟩]
          have h2' : position_amount * interest_rate * holding_time ≤ U256MAX := by
            rwa [Nat.mul_right_comm] at h2
          cases leverage <;>
            simp [checkedMul, checkedDiv, h1, h2', interestDivisor,
              show (10000 : Nat) * 31536000 ≤ U256MAX from by decide,
              Nat.mul_right_comm position_amount holding_time interest_rate]
        · rw [if_neg (by tauto)]
          simp [checkedMul, checkedDiv, h1, h2]
      · rw [if_neg (by tauto)]
        simp [checkedMul, h1]

/-- C10: `LeverageType::from_u8` succeeds exactly on the codes 0, 1, 2, and a
`Mint` or `NetValueAdjusted` event whose leverage byte is ≥ 3 errors before
any store access, leaving the position table and the system parameters
unchanged. -/
theorem c10_leverage_dispatch :
    (∀ v : Nat, (LeverageType.from_u8 v).isSome ↔ (v = 0 ∨ v = 1 ∨ v = 2))
    ∧ LeverageType.from_u8 0 = some .conservative
    ∧ LeverageType.from_u8 1 = some .moderate
    ∧ LeverageType.from_u8 2 = some .aggressive
    ∧ (∀ (now : Nat) (st : MirrorState) (u t lb mp la aa : Nat), 3 ≤ lb →
        applyEvent now st.positions (.mint u t lb mp la) = none
        ∧ applyEvent now st.positions (.netValueAdjusted u t lb mp aa) = none
        ∧ applyEventFull now st (.mint u t lb mp la) = st
        ∧ applyEventFull now st (.netValueAdjusted u t lb mp aa) = st) := by
  refine ⟨?_, rfl, rfl, rfl, ?_⟩
  · intro v
    unfold LeverageType.from_u8
    split_ifs <;> simp_all
  · intro now st u t lb mp la aa hlb
    have hnone : LeverageType.from_u8 lb = none := by
      unfold LeverageType.from_u8
      split_ifs <;> first | omega | rfl
    refine ⟨?_, ?_, ?_, ?_⟩ <;> simp [applyEvent, applyEventFull, hnone]

/-- C10 witness: code 3 on the empty state. -/
theorem c10_leverage_dispatch_witness :
    applyEvent 0 (MirrorState.mk [] defaultSystemParams).positions
        (.mint 1 2 3 4 5) = none
    ∧ applyEventFull 0 (MirrorState.mk [] defaultSystemParams)
        (.netValueAdjusted 1 2 3 4 5) = MirrorState.mk [] defaultSystemParams :=
  ⟨(c10_leverage_dispatch.2.2.2.2 0 (MirrorState.mk [] defaultSystemParams)
      1 2 3 4 5 5 (by decide)).1,
   (c10_leverage_dispatch.2.2.2.2 0 (MirrorState.mk [] defaultSystemParams)
      1 2 3 4 5 5 (by decide)).2.2.2⟩

/-- C9: `ParameterChanged` dispatch — `liquidationThreshold` on the
liquidation manager sets exactly that field; the same topic on the auction
manager is ignored; any name outside the per-contract whitelist leaves the
parameter row unchanged (and the handler returns success). -/
theorem c9_parameter_changed_dispatch (params : SystemParams) (value : Nat) :
    update_liquidation_parameter params (padBytes32 "liquidationThreshold") value
      = { params with liquidation_threshold := value }
    ∧ update_auction_parameter params (padBytes32 "liquidationThreshold") value = params
    ∧ (∀ parameter_bytes, parseParameterName parameter_bytes ∉
        (["adjustmentThreshold", "liquidationThreshold", "penalty"] : List String) →
        update_liquidation_parameter params parameter_bytes value = params)
    ∧ (∀ parameter_bytes, parseParameterName parameter_bytes ∉
        (["priceMultiplier", "resetTime", "minAuctionAmount", "priceDropThreshold",
          "percentageReward", "fixedReward", "circuitBreaker"] : List String) →
        update_auction_parameter params parameter_bytes value = params) := by
  have hname : parseParameterName (padBytes32 "liquidationThreshold")
      = "liquidationThreshold" := by decide
  refine ⟨?_, ?_, ?_, ?_⟩
  · unfold update_liquidation_parameter
    rw [if_neg (by decide)]
    simp only [hname]
    simp
  · unfold update_auction_parameter
    rw [if_neg (by decide)]
    simp only [hname]
    simp
  · intro parameter_bytes h
    simp only [List.mem_cons, List.not_mem_nil, or_false, not_or] at h
    obtain ⟨ha, hl, hp⟩ := h
    unfold update_liquidation_parameter
    split
    · rfl
    · simp [ha, hl, hp]
  · intro parameter_bytes h
    simp only [List.mem_cons, List.not_mem_nil, or_false, not_or] at h
    obtain ⟨h1, h2, h3, h4, h5, h6, h7⟩ := h
    unfold update_auction_parameter
    split
    · rfl
    · simp [h1, h2, h3, h4, h5, h6, h7]

/-- C9 witness: the dispatch at the default parameter row, value `2e18`, and
the unknown name `"unknownParam"`. -/
theorem c9_parameter_changed_dispatch_witness :
    update_liquidation_parameter defaultSystemParams
        (padBytes32 "liquidationThreshold") 2000000000000000000
      = { defaultSystemParams with liquidation_threshold := 2000000000000000000 }
    ∧ update_auction_parameter defaultSystemParams
        (padBytes32 "liquidationThreshold") 2000000000000000000 = defaultSystemParams
    ∧ update_liquidation_parameter defaultSystemParams
        (padBytes32 "unknownParam") 2000000000000000000 = defaultSystemParams :=
  ⟨(c9_parameter_changed_dispatch defaultSystemParams 2000000000000000000).1,
   (c9_parameter_changed_dispatch defaultSystemParams 2000000000000000000).2.1,
   (c9_parameter_changed_dispatch defaultSystemParams 2000000000000000000).2.2.1
     (padBytes32 "unknownParam") (by decide)⟩

/-- C2 counterexample: with `S = 3`, `θ = 0.5·WAD`, `T = 2` the computed delay
is `2`, while `T·(1 − θ) = T·(WAD − θ)/WAD = 1` — the double integer floor
makes the delay differ from the claimed closed form even though `θ < 1`. -/
theorem c2_reset_duration_counterexample :
    calculate_reset_duration 3 500000000000000000 2 = some 2
    ∧ 2 * (WAD - 500000000000000000) / WAD = 1 := by
  constructor <;> decide

/-- C2 amended: absent saturation (`S·θ ≤ U256MAX`,
`⌊S·θ/WAD⌋·T ≤ U256MAX`) and with `T` in `u64` range, the computed delay is
the double floor `T − ⌊⌊S·θ/WAD⌋·T/S⌋` — equal to `T·(1 − θ)` only up to
rounding — and it is `0` exactly when `S = 0`, `T = 0`, or the target price
`⌊S·θ/WAD⌋` is at least `S`. -/
theorem c2_reset_duration_amended (S θ T : Nat)
    (h1 : S * θ ≤ U256MAX) (h2 : S * θ / WAD * T ≤ U256MAX) (hT : T < 2 ^ 64) :
    calculate_reset_duration S θ T =
      some (if S = 0 ∨ T = 0 ∨ S ≤ S * θ / WAD then 0
            else T - S * θ / WAD * T / S)
    ∧ (S ≠ 0 → T ≠ 0 → S * θ / WAD < S → 0 < T - S * θ / WAD * T / S) := by
  have hsat1 : satMul S θ = S * θ := by
    unfold satMul
    exact Nat.min_eq_left h1
  have hsat2 : satMul (S * θ / WAD) T = S * θ / WAD * T := by
    unfold satMul
    exact Nat.min_eq_left h2
  have hrem : S ≠ 0 → T ≠ 0 → S * θ / WAD < S → S * θ / WAD * T / S < T := by
    intro hS hT0 hlt
    rw [Nat.div_lt_iff_lt_mul (Nat.pos_of_ne_zero hS)]
    calc S * θ / WAD * T < S * T :=
          Nat.mul_lt_mul_of_lt_of_le hlt (le_refl T) (Nat.pos_of_ne_zero hT0)
      _ = T * S := Nat.mul_comm S T
  constructor
  · unfold calculate_reset_duration
    by_cases hS : S = 0
    · simp [hS]
    · rw [if_neg hS, if_neg (by omega)]
      by_cases hT0 : T = 0
      · simp [hT0]
      · rw [if_neg hT0]
        simp only [hsat1, hsat2]
        by_cases hedge : S ≤ S * θ / WAD
        · rw [if_pos hedge, if_pos (Or.inr (Or.inr hedge))]
        · rw [if_neg hedge,
            if_neg (Nat.not_le.mpr (hrem hS hT0 (Nat.lt_of_not_le hedge))),
            if_neg (by tauto)]
  · intro hS hT0 hlt
    have := hrem hS hT0 hlt
    omega

/-- C2 witness: `S = WAD`, `θ = 0.5·WAD`, `T = 3600` gives delay `1800`. -/
theorem c2_reset_duration_witness :
    calculate_reset_duration WAD 500000000000000000 3600 = some 1800 := by
  rw [(c2_reset_duration_amended WAD 500000000000000000 3600 (by decide) (by decide)
        (by decide)).1]
  decide

/-- A cursor write for a block at or above the current cursor stores exactly
that block number. -/
theorem processBlockCursor_of_le {cursor blk : Nat} (events : Nat)
    (h : cursor ≤ blk) : processBlockCursor cursor blk events = blk := by
  unfold processBlockCursor
  split
  · rfl
  · omega

/-- Under chain-ordered delivery the stored cursor never falls below its
starting value. -/
theorem le_runRealtimeCursor :
    ∀ (run : List (Nat × Nat)) (cursor : Nat), ascendingFrom cursor run →
      cursor ≤ runRealtimeCursor cursor run
  | [], _, _ => le_refl _
  | b :: bs, c, h => by
      unfold runRealtimeCursor
      rw [processBlockCursor_of_le b.2 h.1]
      exact le_trans h.1 (le_runRealtimeCursor bs b.1 h.2)

/-- The trace of stored cursor values starts with the starting cursor. -/
theorem cursorTrace_head (cursor : Nat) (run : List (Nat × Nat)) :
    (cursorTrace cursor run).head? = some cursor := by
  cases run <;> rfl

/-- C8 counterexample: the realtime path writes `last_synced_block :=
block_number` with no monotonicity guard, so processing block 5 and then
block 3 drops the stored cursor from 5 back to 3. -/
theorem c8_cursor_counterexample :
    runRealtimeCursor 0 [(5, 1)] = 5
    ∧ runRealtimeCursor 0 [(5, 1), (3, 1)] = 3
    ∧ cursorTrace 0 [(5, 1), (3, 1)] = [0, 5, 3]
    ∧ ¬ List.Chain' (· ≤ ·) (cursorTrace 0 [(5, 1), (3, 1)]) := by
  refine ⟨rfl, rfl, rfl, ?_⟩
  rw [show cursorTrace 0 [(5, 1), (3, 1)] = [0, 5, 3] from rfl]
  simp

/-- C8 amended: provided the processed block numbers are non-decreasing and
start at or above the stored cursor (chain-ordered delivery), the successive
stored `last_synced_block` values never decrease, and after block `N` has been
processed the cursor is at least `N`. -/
theorem c8_cursor_monotone (c0 : Nat) (run : List (Nat × Nat))
    (h : ascendingFrom c0 run) :
    List.Chain' (· ≤ ·) (cursorTrace c0 run)
    ∧ ∀ b k, (b, k) ∈ run → b ≤ runRealtimeCursor c0 run := by
  induction run generalizing c0 with
  | nil =>
      exact ⟨List.chain'_singleton c0, by simp⟩
  | cons hd tl ih =>
      obtain ⟨hle, htl⟩ := h
      have hpc : processBlockCursor c0 hd.1 hd.2 = hd.1 :=
        processBlockCursor_of_le hd.2 hle
      obtain ⟨ihchain, ihmem⟩ := ih hd.1 htl
      constructor
      · show List.Chain' (· ≤ ·) (c0 :: cursorTrace (processBlockCursor c0 hd.1 hd.2) tl)
        rw [hpc, List.chain'_cons']
        refine ⟨?_, ihchain⟩
        intro x hx
        rw [cursorTrace_head] at hx
        cases hx
        exact hle
      · intro b k hmem
        show b ≤ runRealtimeCursor (processBlockCursor c0 hd.1 hd.2) tl
        rw [hpc]
        rcases List.mem_cons.mp hmem with heq | hmemtl
        · subst heq
          exact le_runRealtimeCursor tl b htl
        · exact ihmem b k hmemtl

/-- Looking up the key just deleted finds nothing. -/
theorem getPos_deletePos_self :
    ∀ (s : PositionStore) (k : Nat × Nat), getPos (deletePos s k) k = none
  | [], _ => rfl
  | e :: rest, k => by
      unfold deletePos
      by_cases h : e.1 = k
      · rw [if_pos h]
        exact getPos_deletePos_self rest k
      · rw [if_neg h]
        unfold getPos
        rw [if_neg h]
        exact getPos_deletePos_self rest k

/-- Looking up the key just stored finds the stored record. -/
theorem getPos_storePos_self (s : PositionStore) (p : UserPosition) :
    getPos (storePos s p) (p.user, p.token_id) = some p := by
  unfold storePos getPos
  rw [if_pos rfl]

/-- Deleting only removes entries. -/
theorem mem_of_mem_deletePos :
    ∀ {s : PositionStore} {k : Nat × Nat} {e}, e ∈ deletePos s k → e ∈ s := by
  intro s
  induction s with
  | nil => intro _ _ h; exact absurd h (List.not_mem_nil _)
  | cons hd tl ih =>
      intro k e h
      unfold deletePos at h
      by_cases hk : hd.1 = k
      · rw [if_pos hk] at h
        exact List.mem_cons_of_mem hd (ih h)
      · rw [if_neg hk] at h
        rcases List.mem_cons.mp h with rfl | h2
        · exact List.mem_cons_self _ _
        · exact List.mem_cons_of_mem hd (ih h2)

/-- I1 is preserved by deletion. -/
theorem goodStore_deletePos {s : PositionStore} (k : Nat × Nat)
    (h : goodStore s) : goodStore (deletePos s k) :=
  fun e he => h e (mem_of_mem_deletePos he)

/-- I1 is preserved by storing a record with positive amount. -/
theorem goodStore_storePos {s : PositionStore} {p : UserPosition}
    (h : goodStore s) (hp : 0 < p.amount) : goodStore (storePos s p) := by
  intro e he
  rcases List.mem_cons.mp he with rfl | he2
  · exact hp
  · exact goodStore_deletePos _ h e he2

/-- Any record found in a store satisfying I1 has positive amount. -/
theorem goodStore_getPos :
    ∀ {s : PositionStore} (k : Nat × Nat) {p : UserPosition}, goodStore s →
      getPos s k = some p → 0 < p.amount := by
  intro s
  induction s with
  | nil => intro k p _ hget; cases hget
  | cons hd tl ih =>
      intro k p h hget
      unfold getPos at hget
      by_cases hk : hd.1 = k
      · rw [if_pos hk] at hget
        cases hget
        exact h hd (List.mem_cons_self _ _)
      · rw [if_neg hk] at hget
        exact ih k (fun e he => h e (List.mem_cons_of_mem hd he)) hget

/-- C3 counterexample: a stored position with `amount = 1` and an
`InterestCollected` carrying `deduct = 2` — the `U256` subtraction underflows
(the keeper panics) and no updated store is produced, so the claimed update
does not hold for every event payload. -/
theorem c3_interest_collected_counterexample :
    applyEvent 5 [((0, 0), ⟨0, 0, 1, 0, 0, .conservative, 0⟩)]
      (.interestCollected 0 0 2 0) = none := by decide

/-- C3 amended: whenever the event amounts do not underflow the stored ones
(`deduct ≤ amount`, `interest ≤ total_interest`), `InterestCollected` sets
`amount ← amount − deduct`, `total_interest ← total_interest − interest`,
`timestamp ← now`, and deletes the record exactly when the new amount is zero;
in particular after a `deduct` equal to the stored amount the record is
absent. -/
theorem c3_interest_collected_amended (s : PositionStore)
    (user tokenId deduct interest now : Nat) (p : UserPosition)
    (hget : getPos s (user, tokenId) = some p)
    (hd : deduct ≤ p.amount) (hi : interest ≤ p.total_interest) :
    applyEvent now s (.interestCollected user tokenId deduct interest) =
      some (if p.amount - deduct = 0 then deletePos s (user, tokenId)
            else storePos s { p with amount := p.amount - deduct, total_interest := p.total_interest - interest, timestamp := now })
    ∧ (deduct = p.amount →
        getPos ((applyEvent now s
            (.interestCollected user tokenId deduct interest)).getD s)
          (user, tokenId) = none) := by
  have h1 : checkedSub p.amount deduct = some (p.amount - deduct) := by
    unfold checkedSub
    rw [if_pos hd]
  have h2 : checkedSub p.total_interest interest = some (p.total_interest - interest) := by
    unfold checkedSub
    rw [if_pos hi]
  have happ : applyEvent now s (.interestCollected user tokenId deduct interest) =
      some (if p.amount - deduct = 0 then deletePos s (user, tokenId)
            else storePos s { p with amount := p.amount - deduct, total_interest := p.total_interest - interest, timestamp := now }) := by
    by_cases hz : p.amount - deduct = 0 <;>
      simp [applyEvent, hget, h1, h2, hz]
  refine ⟨happ, ?_⟩
  intro hdd
  rw [happ]
  have hz : p.amount - deduct = 0 := by omega
  rw [if_pos hz, Option.getD_some]
  exact getPos_deletePos_self s (user, tokenId)

/-- C3 witness: deduct part of the amount, then all of it. -/
theorem c3_interest_collected_witness :
    applyEvent 9 [((1, 2), ⟨1, 2, 10, 0, 4, .moderate, 3⟩)]
        (.interestCollected 1 2 4 1) =
      some (if (10 : Nat) - 4 = 0 then deletePos [((1, 2), ⟨1, 2, 10, 0, 4, .moderate, 3⟩)] (1, 2)
            else storePos [((1, 2), ⟨1, 2, 10, 0, 4, .moderate, 3⟩)] ⟨1, 2, 10 - 4, 9, 4 - 1, .moderate, 3⟩)
    ∧ getPos ((applyEvent 9 [((1, 2), ⟨1, 2, 10, 0, 4, .moderate, 3⟩)]
          (.interestCollected 1 2 10 4)).getD
            [((1, 2), ⟨1, 2, 10, 0, 4, .moderate, 3⟩)]) (1, 2) = none :=
  ⟨(c3_interest_collected_amended [((1, 2), ⟨1, 2, 10, 0, 4, .moderate, 3⟩)]
      1 2 4 1 9 ⟨1, 2, 10, 0, 4, .moderate, 3⟩ (by decide) (by decide) (by decide)).1,
   (c3_interest_collected_amended [((1, 2), ⟨1, 2, 10, 0, 4, .moderate, 3⟩)]
      1 2 10 4 9 ⟨1, 2, 10, 0, 4, .moderate, 3⟩ (by decide) (by decide) (by decide)).2
     (by decide)⟩

/-- C4 counterexample: applying `PositionIncreased` with `totalAmount = 0` to
the empty store creates a record whose `amount` is zero — invariant I1 fails
on a reachable state. -/
theorem c4_amount_positive_counterexample :
    ¬ goodStore (applyEvents 0 [] [.positionIncreased 0 0 0 0]) := by decide

/-- One event application preserves I1 when the event's amount fields are
positive. -/
theorem goodStore_applyEvent {s : PositionStore} (now : Nat) {e : Event}
    (h : goodStore s) (he : positiveAmounts e) :
    goodStore ((applyEvent now s e).getD s) := by
  cases e with
  | positionIncreased user tokenId totalAmount totalInterest =>
      have hta : 0 < totalAmount := he
      unfold applyEvent
      cases hm : getPos s (user, tokenId) <;>
        · simp only [hm, Option.getD_some]
          exact goodStore_storePos h hta
  | interestCollected user tokenId deduct interest =>
      unfold applyEvent
      cases hm : getPos s (user, tokenId) with
      | none =>
          simp only [hm, Option.getD_some]
          exact h
      | some p =>
          by_cases hdle : deduct ≤ p.amount
          · by_cases hile : interest ≤ p.total_interest
            · have h1 : checkedSub p.amount deduct = some (p.amount - deduct) := by
                unfold checkedSub
                rw [if_pos hdle]
              have h2 : checkedSub p.total_interest interest
                  = some (p.total_interest - interest) := by
                unfold checkedSub
                rw [if_pos hile]
              by_cases hz : p.amount - deduct = 0
              · simp only [hm, h1, h2]
                simp [hz]
                exact goodStore_deletePos _ h
              · simp only [hm, h1, h2]
                simp [hz]
                exact goodStore_storePos h (Nat.pos_of_ne_zero hz)
            · have h2 : checkedSub p.total_interest interest = none := by
                unfold checkedSub
                rw [if_neg hile]
              simp only [hm, h2]
              cases hc : checkedSub p.amount deduct <;>
                · simp
                  exact h
          · have h1 : checkedSub p.amount deduct = none := by
              unfold checkedSub
              rw [if_neg hdle]
            simp only [hm, h1, Option.none_bind, Option.getD_none]
            exact h
  | mint user tokenId leverageByte mintPrice lAmount =>
      have hla : 0 < lAmount := he
      unfold applyEvent
      cases hl : LeverageType.from_u8 leverageByte with
      | none =>
          simp only [hl, Option.none_bind, Option.getD_none]
          exact h
      | some lev =>
          cases hm : getPos s (user, tokenId) with
          | none =>
              simp only [hl, hm]
              simp
              exact goodStore_storePos h hla
          | some p =>
              simp only [hl, hm]
              simp
              exact goodStore_storePos h (show 0 < p.amount from goodStore_getPos _ h hm)
  | netValueAdjusted user toTokenId leverageByte newMintPrice adjustAmount =>
      have haa : 0 < adjustAmount := he
      unfold applyEvent
      cases hl : LeverageType.from_u8 leverageByte with
      | none =>
          simp only [hl, Option.none_bind, Option.getD_none]
          exact h
      | some lev =>
          cases hm : getPos s (user, toTokenId) with
          | none =>
              simp only [hl, hm]
              simp
              exact goodStore_storePos h haa
          | some p =>
              simp only [hl, hm]
              simp
              exact goodStore_storePos h (show 0 < p.amount from goodStore_getPos _ h hm)

/-- Event sequences preserve I1 under the positivity side condition. -/
theorem goodStore_applyEvents :
    ∀ (es : List Event) (s : PositionStore) (now : Nat), goodStore s →
      (∀ e ∈ es, positiveAmounts e) → goodStore (applyEvents now s es)
  | [], _, _, h, _ => h
  | e :: es, s, now, h, hall => by
      unfold applyEvents
      exact goodStore_applyEvents es _ now
        (goodStore_applyEvent now h (hall e (List.mem_cons_self _ _)))
        (fun x hx => hall x (List.mem_cons_of_mem e hx))

/-- C4 amended: I1 (`amount > 0` for every stored record) holds in every state
reachable from the empty store by decoded events, provided every
`PositionIncreased` carries `totalAmount > 0`, every `Mint` carries
`lAmount > 0` and every `NetValueAdjusted` carries `adjustAmount > 0` — the
code itself performs no zero check on these creation/update amounts. -/
theorem c4_amount_positive_amended (now : Nat) (es : List Event)
    (h : ∀ e ∈ es, positiveAmounts e) : goodStore (applyEvents now [] es) :=
  goodStore_applyEvents es [] now (fun e he => absurd he (List.not_mem_nil e)) h

/-- C4 witness: a mint, an increase, and a partial then full collection. -/
theorem c4_amount_positive_witness :
    goodStore (applyEvents 3 []
      [.mint 1 2 0 5 7, .positionIncreased 1 2 10 0,
       .interestCollected 1 2 4 0, .interestCollected 1 2 6 0]) :=
  c4_amount_positive_amended 3
    [.mint 1 2 0 5 7, .positionIncreased 1 2 10 0,
     .interestCollected 1 2 4 0, .interestCollected 1 2 6 0]
    (by decide)

/-- Looking up the auction id just deleted finds nothing. -/
theorem getAuction_deleteAuction_self :
    ∀ (s : AuctionStore) (id : Nat), getAuction (deleteAuction s id) id = none
  | [], _ => rfl
  | e :: rest, id => by
      unfold deleteAuction
      by_cases h : e.1 = id
      · rw [if_pos h]
        exact getAuction_deleteAuction_self rest id
      · rw [if_neg h]
        unfold getAuction
        rw [if_neg h]
        exact getAuction_deleteAuction_self rest id

/-- Deletion preserves the absence of any auction id. -/
theorem getAuction_deleteAuction_none :
    ∀ (s : AuctionStore) (i j : Nat), getAuction s i = none →
      getAuction (deleteAuction s j) i = none
  | [], _, _, _ => rfl
  | e :: rest, i, j, habs => by
      unfold getAuction at habs
      by_cases hi : e.1 = i
      · rw [if_pos hi] at habs
        cases habs
      · rw [if_neg hi] at habs
        unfold deleteAuction
        by_cases hj : e.1 = j
        · rw [if_pos hj]
          exact getAuction_deleteAuction_none rest i j habs
        · rw [if_neg hj]
          unfold getAuction
          rw [if_neg hi]
          exact getAuction_deleteAuction_none rest i j habs

/-- A successful auction lookup exhibits a table entry. -/
theorem getAuction_mem :
    ∀ {s : AuctionStore} {k : Nat} {a : AuctionInfo}, getAuction s k = some a →
      (k, a) ∈ s := by
  intro s
  induction s with
  | nil => intro _ _ h; cases h
  | cons hd tl ih =>
      intro k a h
      unfold getAuction at h
      by_cases hk : hd.1 = k
      · rw [if_pos hk] at h
        cases h
        rw [← hk]
        exact List.mem_cons_self _ _
      · rw [if_neg hk] at h
        exact List.mem_cons_of_mem hd (ih h)

/-- Deleting only removes auction entries. -/
theorem mem_of_mem_deleteAuction :
    ∀ {s : AuctionStore} {j : Nat} {e}, e ∈ deleteAuction s j → e ∈ s := by
  intro s
  induction s with
  | nil => intro _ _ h; exact absurd h (List.not_mem_nil _)
  | cons hd tl ih =>
      intro j e h
      unfold deleteAuction at h
      by_cases hj : hd.1 = j
      · rw [if_pos hj] at h
        exact List.mem_cons_of_mem hd (ih h)
      · rw [if_neg hj] at h
        rcases List.mem_cons.mp h with rfl | h2
        · exact List.mem_cons_self _ _
        · exact List.mem_cons_of_mem hd (ih h2)

/-- Storing keys every record under its own `auction_id`, so consistency is
preserved. -/
theorem consistentAuctions_storeAuction {s : AuctionStore} (a : AuctionInfo)
    (h : consistentAuctions s) : consistentAuctions (storeAuction s a) := by
  intro e he
  rcases List.mem_cons.mp he with rfl | he2
  · rfl
  · exact h e (mem_of_mem_deleteAuction he2)

/-- Deletion preserves auction-table consistency. -/
theorem consistentAuctions_deleteAuction {s : AuctionStore} (j : Nat)
    (h : consistentAuctions s) : consistentAuctions (deleteAuction s j) :=
  fun e he => h e (mem_of_mem_deleteAuction he)

/-- Event application preserves auction-table consistency. -/
theorem consistentAuctions_applyAuctionEvent {s : AuctionStore} (now : Nat)
    (e : AuctionEvent) (h : consistentAuctions s) :
    consistentAuctions (applyAuctionEvent now s e) := by
  cases e with
  | auctionStarted id sp ua oo tid tr ra =>
      exact consistentAuctions_storeAuction _ h
  | auctionReset id nsp =>
      unfold applyAuctionEvent
      cases hm : getAuction s id with
      | none =>
          simp only [hm]
          exact h
      | some a =>
          simp only [hm]
          exact consistentAuctions_storeAuction _ h
  | auctionRemoved id => exact consistentAuctions_deleteAuction _ h

/-- An absent auction id stays absent under any event that does not re-create
it. -/
theorem auctionAbsent_applyAuctionEvent {s : AuctionStore} {id : Nat} (now : Nat)
    {e : AuctionEvent} (hcons : consistentAuctions s)
    (habs : getAuction s id = none) (hnr : ¬ recreatesAuction id e) :
    getAuction (applyAuctionEvent now s e) id = none := by
  cases e with
  | auctionStarted idStarted sp ua oo tid tr ra =>
      have hne : idStarted ≠ id := hnr
      simp only [applyAuctionEvent, storeAuction, getAuction]
      rw [if_neg hne]
      exact getAuction_deleteAuction_none s id idStarted habs
  | auctionReset idReset nsp =>
      unfold applyAuctionEvent
      cases hm : getAuction s idReset with
      | none =>
          simp only [hm]
          exact habs
      | some a =>
          have hkey : idReset = a.auction_id := hcons (idReset, a) (getAuction_mem hm)
          have hne : a.auction_id ≠ id := by
            intro hh
            rw [← hkey] at hh
            rw [hh] at hm
            rw [habs] at hm
            cases hm
          simp only [hm, storeAuction, getAuction]
          rw [if_neg hne]
          exact getAuction_deleteAuction_none s id _ habs
  | auctionRemoved idRemoved =>
      exact getAuction_deleteAuction_none s id idRemoved habs

/-- An absent auction id stays absent along any event sequence with no
re-creation. -/
theorem auctionAbsent_applyAuctionEvents :
    ∀ (es : List (Nat × AuctionEvent)) (s : AuctionStore) {id : Nat},
      consistentAuctions s → getAuction s id = none →
      (∀ e ∈ es, ¬ recreatesAuction id e.2) →
      getAuction (applyAuctionEvents s es) id = none
  | [], _, _, _, habs, _ => habs
  | e :: es, s, id, hcons, habs, hnr => by
      unfold applyAuctionEvents
      exact auctionAbsent_applyAuctionEvents es _
        (consistentAuctions_applyAuctionEvent e.1 e.2 hcons)
        (auctionAbsent_applyAuctionEvent e.1 hcons habs
          (hnr e (List.mem_cons_self _ _)))
        (fun x hx => hnr x (List.mem_cons_of_mem e hx))

/-- C7: if `AuctionRemoved(id)` is applied before the timer fires (and no
later event re-creates auction `id`), then the fire-time re-check finds no
record and the timer is a no-op — no `resetAuction(id, keeper)` transaction is
submitted. -/
theorem c7_reset_cancellation (s : AuctionStore) (now id : Nat)
    (es : List (Nat × AuctionEvent)) (hcons : consistentAuctions s)
    (hnr : ∀ e ∈ es, ¬ recreatesAuction id e.2) :
    timerFire (applyAuctionEvents
      (applyAuctionEvent now s (.auctionRemoved id)) es) id = none := by
  have habs : getAuction (applyAuctionEvents
      (applyAuctionEvent now s (.auctionRemoved id)) es) id = none :=
    auctionAbsent_applyAuctionEvents es _
      (consistentAuctions_deleteAuction id hcons)
      (getAuction_deleteAuction_self s id) hnr
  simp [timerFire, auctionExists, habs]

/-- C7 witness: auction 7 is removed, auction 9 starts afterwards, the timer
for 7 then fires without submitting anything. -/
theorem c7_reset_cancellation_witness :
    timerFire (applyAuctionEvents
      (applyAuctionEvent 100 [(7, ⟨7, WAD, 5, 1, 2, 3, 4, 0⟩)] (.auctionRemoved 7))
      [(130, .auctionStarted 9 WAD 5 1 2 3 4), (140, .auctionReset 9 500)]) 7 = none :=
  c7_reset_cancellation [(7, ⟨7, WAD, 5, 1, 2, 3, 4, 0⟩)] 100 7
    [(130, .auctionStarted 9 WAD 5 1 2 3 4), (140, .auctionReset 9 500)]
    (by decide) (by decide)

/-- When the numerator does not underflow and the products stay in `U256`
range, `calculate_gross_nav` returns exactly the leverage formula scaled by
WAD. -/
theorem calculate_gross_nav_eq (lev : LeverageType) (pt p0 : Nat)
    (hp0 : 0 < p0) (hk : p0 ≤ leverageMul lev * pt)
    (h1 : leverageMul lev * pt ≤ U256MAX)
    (h2 : (leverageMul lev * pt - p0) * WAD ≤ U256MAX)
    (h3 : leverageDen lev * p0 ≤ U256MAX) :
    calculate_gross_nav lev pt p0 = some (specGrossNav lev pt p0) := by
  have hp0z : p0 ≠ 0 := Nat.pos_iff_ne_zero.mp hp0
  cases lev <;>
  · simp only [leverageMul, leverageDen] at hk h1 h2 h3
    simp [calculate_gross_nav, specGrossNav, checkedMul, checkedSub, hk, h1, h2, h3,
      hp0z, Nat.mul_eq_zero]

/-- C1 counterexample: Conservative leverage with `Pt = 0 < P0 = 1` (so
`9·Pt < P0`): the unchecked `U256` subtraction `9·Pt − P0` underflows (the
keeper panics) and no gross NAV is returned, so the claim fails for prices
with `k·Pt < P0`. -/
theorem c1_nav_counterexample :
    calculate_gross_nav .conservative 0 1 = none
    ∧ navForPosition 0 0 0 ⟨0, 0, 1, 0, 0, .conservative, 1⟩ = none := by
  constructor <;> decide

/-- C1 amended: for `mint_price > 0` and `k₁·Pt ≥ P0`, with all intermediate
products within `U256` range, the per-position NAV computation returns
`gross_nav` equal to the leverage formula scaled by WAD and
`net_nav = max(0, A·gross_nav/WAD − I)·WAD/A` (`I` the total accrued
interest); when `k₁·Pt < P0` the subtraction underflows and no NAV is
returned (see the counterexample). -/
theorem c1_nav_amended (p : UserPosition) (interest_rate now current_price g I : Nat)
    (hgdef : g = specGrossNav p.leverage current_price p.mint_price)
    (hIdef : I = p.total_interest +
      newInterestUsed p.amount p.leverage interest_rate (now - p.timestamp))
    (hp0 : 0 < p.mint_price)
    (hk : p.mint_price ≤ leverageMul p.leverage * current_price)
    (h1 : leverageMul p.leverage * current_price ≤ U256MAX)
    (h2 : (leverageMul p.leverage * current_price - p.mint_price) * WAD ≤ U256MAX)
    (h3 : leverageDen p.leverage * p.mint_price ≤ U256MAX)
    (hacc : I ≤ U256MAX)
    (htv : p.amount * g ≤ U256MAX)
    (hnv : (p.amount * g / WAD - I) * WAD ≤ U256MAX) :
    navForPosition interest_rate now current_price p =
      some ⟨p.user, p.token_id, g, specNetNav p.amount g I, p.amount,
        p.amount * g / WAD, p.amount * g / WAD - I, I⟩ := by
  subst hgdef
  subst hIdef
  have hg := calculate_gross_nav_eq p.leverage current_price p.mint_price hp0 hk h1 h2 h3
  have hadd : checkedAdd p.total_interest
      (newInterestUsed p.amount p.leverage interest_rate (now - p.timestamp)) =
      some (p.total_interest +
        newInterestUsed p.amount p.leverage interest_rate (now - p.timestamp)) := by
    unfold checkedAdd
    rw [if_pos hacc]
  simp only [navForPosition]
  set G := specGrossNav p.leverage current_price p.mint_price with hG
  set ni := newInterestUsed p.amount p.leverage interest_rate (now - p.timestamp) with hni
  simp only [hadd, hg, Option.bind_eq_bind', Option.some_bind']
  by_cases hg0 : G = 0
  · rw [if_pos hg0]
    simp only [Option.bind_eq_bind', Option.some_bind', hg0, Nat.mul_zero,
      Nat.zero_div]
    by_cases hcmp0 : p.total_interest + ni ≤ 0
    · rw [if_pos hcmp0]
      have hIz : p.total_interest + ni = 0 := Nat.le_zero.mp hcmp0
      by_cases hA : p.amount = 0
      · rw [if_pos hA]
        simp [specNetNav, hA, hIz]
      · rw [if_neg hA]
        simp [specNetNav, checkedMul, hIz]
    · rw [if_neg hcmp0]
      simp [specNetNav]
  · rw [if_neg hg0]
    have hmul : checkedMul p.amount G = some (p.amount * G) := by
      unfold checkedMul
      rw [if_pos htv]
    simp only [hmul, Option.bind_eq_bind', Option.some_bind']
    by_cases hcmp : p.total_interest + ni ≤ p.amount * G / WAD
    · rw [if_pos hcmp]
      by_cases hA : p.amount = 0
      · rw [if_pos hA]
        simp [specNetNav, hA]
      · rw [if_neg hA]
        have hnvm : checkedMul (p.amount * G / WAD - (p.total_interest + ni)) WAD =
            some ((p.amount * G / WAD - (p.total_interest + ni)) * WAD) := by
          unfold checkedMul
          rw [if_pos hnv]
        simp only [hnvm, Option.bind_eq_bind', Option.some_bind']
        simp [specNetNav]
    · rw [if_neg hcmp]
      have hzero : p.amount * G / WAD - (p.total_interest + ni) = 0 :=
        Nat.sub_eq_zero_of_le (Nat.le_of_lt (Nat.lt_of_not_le hcmp))
      simp [specNetNav, hzero]

/-- C1 witness: Conservative, `A = P0 = Pt = WAD`, no interest. -/
theorem c1_nav_amended_witness :
    navForPosition 0 0 WAD ⟨1, 2, WAD, 0, 0, .conservative, WAD⟩ =
      some ⟨1, 2, WAD, WAD, WAD, WAD, WAD, 0⟩ := by
  rw [c1_nav_amended ⟨1, 2, WAD, 0, 0, .conservative, WAD⟩ 0 0 WAD WAD 0
    (by decide) (by decide) (by decide) (by decide) (by decide) (by decide)
    (by decide) (by decide) (by decide) (by decide)]
  decide

/-- When every non-skipped position's NAV computation succeeds,
`calculate_all_nav` returns exactly the per-position results of the positions
with nonzero mint price, in order. -/
theorem calculate_all_nav_eq :
    ∀ (positions : List UserPosition) (interest_rate now current_price : Nat),
      (∀ p ∈ positions, p.mint_price ≠ 0 →
        (navForPosition interest_rate now current_price p).isSome) →
      calculate_all_nav interest_rate now current_price positions =
        some ((positions.filter (fun p => p.mint_price ≠ 0)).filterMap
          (navForPosition interest_rate now current_price))
  | [], _, _, _, _ => rfl
  | p :: ps, interest_rate, now, current_price, h => by
      have ih := calculate_all_nav_eq ps interest_rate now current_price
        (fun q hq => h q (List.mem_cons_of_mem p hq))
      by_cases hmp : p.mint_price = 0
      · simp [calculate_all_nav, hmp, ih]
      · obtain ⟨nc, hnc⟩ := Option.isSome_iff_exists.mp
          (h p (List.mem_cons_self _ _) hmp)
        simp [calculate_all_nav, hmp, ih, hnc]

/-- C6 counterexample: position `(7,3)` alone is barked (its `net_nav = WAD`
is below the threshold `2·WAD`), but adding a deeply-underwater Conservative
position (`9·Pt < P0`) makes the shared NAV pass panic, so no bark at all is
attempted — a submission-independent failure the claim excludes. -/
theorem c6_bark_selection_counterexample :
    check_and_execute_liquidations 0 0 WAD (2 * WAD)
        [⟨7, 3, WAD, 0, 0, .conservative, WAD⟩] (fun _ => false)
      = some [((7, 3), false)]
    ∧ check_and_execute_liquidations 0 0 WAD (2 * WAD)
        [⟨7, 3, WAD, 0, 0, .conservative, WAD⟩,
         ⟨8, 4, WAD, 0, 0, .conservative, 10 * WAD⟩] (fun _ => false)
      = none := by
  constructor <;> decide

/-- C6 amended: when every position with nonzero mint price has a succeeding
NAV computation, one bark is attempted exactly for each position with
`mint_price ≠ 0` and `net_nav < liquidation_threshold`; the list of attempted
`(user, tokenId)` keys does not depend on which submissions fail. -/
theorem c6_bark_selection_amended (interest_rate now current_price
    liquidation_threshold : Nat) (positions : List UserPosition)
    (fails : Nat × Nat → Bool)
    (h : ∀ p ∈ positions, p.mint_price ≠ 0 →
      (navForPosition interest_rate now current_price p).isSome) :
    check_and_execute_liquidations interest_rate now current_price
        liquidation_threshold positions fails =
      some ((((positions.filter (fun p => p.mint_price ≠ 0)).filterMap
          (navForPosition interest_rate now current_price)).filter
            (fun r => r.net_nav < liquidation_threshold)).map
        (fun r => ((r.user, r.token_id), fails (r.user, r.token_id))))
    ∧ (check_and_execute_liquidations interest_rate now current_price
        liquidation_threshold positions fails).map (List.map Prod.fst) =
      some ((((positions.filter (fun p => p.mint_price ≠ 0)).filterMap
          (navForPosition interest_rate now current_price)).filter
            (fun r => r.net_nav < liquidation_threshold)).map
        (fun r => (r.user, r.token_id))) := by
  have hall := calculate_all_nav_eq positions interest_rate now current_price h
  constructor
  · simp [check_and_execute_liquidations, hall]
  · simp [check_and_execute_liquidations, hall, List.map_map, Function.comp]

/-- C6 witness: one liquidatable position, one position skipped for
`mint_price = 0`; the bark attempt list is exactly the liquidatable key. -/
theorem c6_bark_selection_witness :
    check_and_execute_liquidations 0 0 WAD (2 * WAD)
      [⟨7, 3, WAD, 0, 0, .conservative, WAD⟩, ⟨9, 5, WAD, 0, 0, .conservative, 0⟩]
      (fun _ => true) = some [((7, 3), true)] := by
  rw [(c6_bark_selection_amended 0 0 WAD (2 * WAD)
    [⟨7, 3, WAD, 0, 0, .conservative, WAD⟩, ⟨9, 5, WAD, 0, 0, .conservative, 0⟩]
    (fun _ => true) (by decide)).1]
  decide

/-- C8 witness: a chain-ordered run. -/
theorem c8_cursor_monotone_witness :
    List.Chain' (· ≤ ·) (cursorTrace 4 [(5, 1), (5, 0), (9, 2)])
    ∧ ∀ b k, (b, k) ∈ ([(5, 1), (5, 0), (9, 2)] : List (Nat × Nat)) →
        b ≤ runRealtimeCursor 4 [(5, 1), (5, 0), (9, 2)] :=
  c8_cursor_monotone 4 [(5, 1), (5, 0), (9, 2)]
    ⟨by decide, by decide, by decide, trivial⟩

end Keeper
